import Mathlib

/-!
# Verification of the EngiDitherer quantization / error-diffusion core

Shallow embedding of the repository's dithering engine:

* `src/src/palette.py`   — `MinecraftPalette` (nearest-color lookup, hex decoding)
* `src/src/dithering.py` — `MinecraftDitherer` (Floyd–Steinberg sweep, diffusion)
* `src/src/image_utils.py` — `ImageProcessor` (validation, array conversion)

Conventions of the embedding:

* numpy `float64` values are modelled as exact rationals (`ℚ`); float rounding
  is not modelled.
* A pixel of the working buffer (`image_array`, float64, shape (h, w, 3)) is a
  function `Fin 3 → ℚ`; a pixel of an integer image is `Fin 3 → ℤ`.
* A 2-D buffer indexed numpy-style `buf[row, col]` becomes `ℤ → ℤ → pixel`.
  Using `ℤ` indices lets the embedding express the source's neighbour
  coordinates `nx = x + dx - 1` (which can be `-1`) directly; the in-bounds
  guard of the source is carried over verbatim.
* The one piece of the source that cannot be embedded exactly is
  `MinecraftPalette.rgb_to_lab` (palette.py 62–69), which calls
  `colorspacious.cspace_convert` (irrational real arithmetic: sRGB
  linearization with exponent 2.4, cube roots).  Every definition and theorem
  that touches the LAB metric is therefore parametric in an arbitrary
  conversion `labOf : (Fin 3 → ℤ) → (Fin 3 → ℚ)`; the results hold for every
  conversion, in particular the real one.
* `np.sqrt` applied to the vectors of squared distances (palette.py 77, 91)
  is dropped: square root is strictly monotone, so the argmin (and all ties)
  of the square-rooted distances coincide with those of the squared distances,
  which are exactly representable.
-/

/-- An integer RGB pixel (a row of `colors_rgb`, or one pixel of `output_array`). -/
abbrev Col : Type := Fin 3 → ℤ

/-- A float64 RGB pixel of the working buffer (`image_array.astype(np.float64)`). -/
abbrev Pix : Type := Fin 3 → ℚ

/-- A 2-D float buffer, numpy-indexed `buf row col` (i.e. `buf[y, x]`). -/
abbrev Buf : Type := ℤ → ℤ → Pix

/-- A 2-D integer buffer (the `uint8` output array, numpy-indexed). -/
abbrev OutBuf : Type := ℤ → ℤ → Col

/-- `np.clip(v, 0, 255)` (dithering.py 108). -/
def clampChan (v : ℚ) : ℚ := min (max v 0) 255

/-- The Floyd–Steinberg matrix `self.error_matrix` (dithering.py 43–46):
`[[0, 0, 7/16], [3/16, 5/16, 1/16]]`. -/
def errorMatrix : List (List ℚ) := [[0, 0, 7/16], [3/16, 5/16, 1/16]]

/-- `self.error_matrix[dy, dx]`. -/
def matWeight (dy dx : ℕ) : ℚ := (errorMatrix.getD dy []).getD dx 0

/-- The neighbour row `ny = y + dy + 1` (dithering.py 94; the source comment
says "+1 because we're looking at next row"). -/
def neighborRow (y : ℤ) (dy : ℕ) : ℤ := y + dy + 1

/-- The neighbour column `nx = x + dx - 1` (dithering.py 93). -/
def neighborCol (x : ℤ) (dx : ℕ) : ℤ := x + dx - 1

/-- The source's bounds check `0 <= nx < width and 0 <= ny < height`
(dithering.py 97). -/
def inb (width height nx ny : ℤ) : Prop :=
  0 ≤ nx ∧ nx < width ∧ 0 ≤ ny ∧ ny < height

instance (width height nx ny : ℤ) : Decidable (inb width height nx ny) :=
  inferInstanceAs (Decidable (0 ≤ nx ∧ nx < width ∧ 0 ≤ ny ∧ ny < height))

/-- Overwrite one pixel of a buffer (a single `image_array[ny, nx, :] = ...`). -/
def pointUpdate (b : Buf) (i j : ℤ) (p : Pix) : Buf :=
  fun i' j' => if i' = i ∧ j' = j then p else b i' j'

/-- One iteration of the doubly-nested stencil loop of
`MinecraftDitherer._apply_error_diffusion` (dithering.py 90–108) at matrix
position `d = (dy, dx)`: compute the neighbour coordinates, check bounds,
skip zero weights, and otherwise add the weighted error to each channel with
immediate clamping.  The three channel writes of the source read and write
disjoint channels, so they are one simultaneous pixel update. -/
def diffuseStep (width height x y : ℤ) (error : Pix) (b : Buf) (d : ℕ × ℕ) : Buf :=
  let nx := neighborCol x d.2
  let ny := neighborRow y d.1
  if inb width height nx ny then
    let weight := matWeight d.1 d.2
    if 0 < weight then
      pointUpdate b ny nx (fun c => clampChan (b ny nx c + error c * weight))
    else b
  else b

/-- The iteration order of `for dy in range(2): for dx in range(3)`. -/
def stencilCoords : List (ℕ × ℕ) := [(0,0), (0,1), (0,2), (1,0), (1,1), (1,2)]

/-- `MinecraftDitherer._apply_error_diffusion` (dithering.py 78–108). -/
def applyErrorDiffusion (width height x y : ℤ) (error : Pix) (b : Buf) : Buf :=
  stencilCoords.foldl (diffuseStep width height x y error) b

/-- `np.argmin` over a list of distances: index of the first occurrence of the
minimum (numpy returns the first occurrence on ties). -/
def argmin : List ℚ → ℕ
  | [] => 0
  | [_] => 0
  | d :: e :: ds =>
    let j := argmin (e :: ds)
    if (e :: ds).getD j 0 < d then j + 1 else 0

theorem argmin_lt_length : ∀ (l : List ℚ), l ≠ [] → argmin l < l.length := by
  intro l
  match l with
  | [] => intro h; exact absurd rfl h
  | [d] => intro _; simp [argmin]
  | d :: e :: ds =>
    intro _
    have ih := argmin_lt_length (e :: ds) (by simp)
    simp only [argmin]
    split
    · simpa using Nat.succ_lt_succ ih
    · simp

theorem argmin_le : ∀ (l : List ℚ) (j : ℕ), j < l.length →
    l.getD (argmin l) 0 ≤ l.getD j 0 := by
  intro l
  match l with
  | [] => intro j hj; simp at hj
  | [d] =>
    intro j hj
    have hj0 : j = 0 := by simpa using hj
    subst hj0; simp [argmin]
  | d :: e :: ds =>
    intro j hj
    have ih := argmin_le (e :: ds)
    simp only [argmin]
    split
    · next hlt =>
      match j with
      | 0 => simpa using le_of_lt hlt
      | j + 1 =>
        have := ih j (by simpa using Nat.lt_of_succ_lt_succ hj)
        simpa using this
    · next hge =>
      match j with
      | 0 => simp
      | j + 1 =>
        have h1 := ih j (by simpa using Nat.lt_of_succ_lt_succ hj)
        have h2 : d ≤ (e :: ds).getD (argmin (e :: ds)) 0 := le_of_not_lt hge
        simpa using le_trans h2 h1

theorem argmin_first : ∀ (l : List ℚ) (j : ℕ), j < argmin l →
    l.getD (argmin l) 0 < l.getD j 0 := by
  intro l
  match l with
  | [] => intro j hj; simp [argmin] at hj
  | [d] => intro j hj; simp [argmin] at hj
  | d :: e :: ds =>
    intro j hj
    have ih := argmin_first (e :: ds)
    simp only [argmin] at hj ⊢
    by_cases hlt : (e :: ds).getD (argmin (e :: ds)) 0 < d
    · simp only [if_pos hlt] at hj ⊢
      match j with
      | 0 => simpa using hlt
      | j + 1 =>
        have := ih j (Nat.lt_of_succ_lt_succ hj)
        simpa using this
    · simp only [if_neg hlt] at hj
      exact absurd hj (Nat.not_lt_zero j)

/-! ## Palette (src/src/palette.py) -/

/-- A `"#RRGGBB"` hex string re-encoded as its 24-bit numeric value
(e.g. `"#DC0000"` is `0xDC0000`). -/
abbrev HexColor : Type := ℕ

/-- `MinecraftPalette.hex_to_rgb` (palette.py 51–55):
`int(hex_color[i:i+2], 16) for i in (0, 2, 4)`. -/
def hex_to_rgb (n : HexColor) : Col :=
  ![(n / 2 ^ 16 % 256 : ℤ), (n / 2 ^ 8 % 256 : ℤ), (n % 256 : ℤ)]

/-- `MinecraftPalette.CARPET_COLORS` (palette.py 15–25), the 61 default
carpet colors. -/
def CARPET_COLORS : List HexColor :=
  [0xDC0000, 0xA3292A, 0x842C2C, 0x8A4243, 0x7A3327, 0x600100, 0x4F1519,
   0xBA6D2C, 0xA0721F, 0x89461F, 0x6F4A2A, 0x7B663E, 0x58412C, 0x825E42,
   0x745C54, 0xB4988A, 0xBA967E, 0xD5C98C, 0xC5C52C, 0xD7CD42, 0x6D9930,
   0x6DB015, 0x58642D, 0x586D2C, 0x414624, 0x006A00, 0x00BB32, 0x6D9081,
   0x119B72, 0x327A78, 0x126C73, 0x416D84, 0x5884BA, 0x3F6EDC, 0x3737DC,
   0x2C4199, 0x4FBCB7, 0x8A8ADC, 0x8D909E, 0x605D77, 0x41354F, 0x9941BA,
   0x6D3699, 0xD06D8E, 0x7F3653, 0x804B5D, 0x693E4B, 0x4A2535, 0xDCDCDC,
   0xDCD9D3, 0xABABAB, 0x909090, 0x848484, 0x606060, 0x565656, 0x4B4F4F,
   0x414141, 0x151515, 0x1F120D, 0x31231E, 0x412B1E]

/-- The typed error taxonomy of spec §7.  The source raises
`ValueError("Color palette cannot be empty")` for the empty palette
(palette.py 29–30); the spec names that error `InvalidPaletteError`. -/
inductive DitherError where
  | invalidPalette : DitherError
  | invalidDimensions : String → DitherError
  | unsupportedImage : String → DitherError
deriving DecidableEq, Repr

/-- `MinecraftPalette.__init__` (palette.py 27–49): fail on an empty color
list, otherwise decode every hex color to RGB (`colors_rgb`).  The LAB cache
(`colors_lab`) is the image of the abstract conversion and is recomputed on
the fly by `find_closest_color_lab` below, which is equivalent to caching it. -/
def MinecraftPalette.init (colors : List HexColor) : Except DitherError (List Col) :=
  if colors = [] then .error .invalidPalette
  else .ok (colors.map hex_to_rgb)

/-- The default pixel numpy yields for an out-of-range index; never reached
under the `argmin` bound. -/
def colDefault : Col := fun _ => 0

/-- Squared RGB distance, `np.sum((self.colors_rgb - target) ** 2)`
(palette.py 77).  The source takes `np.sqrt` of this before `argmin`;
square root is strictly monotone, so it is dropped (see file header). -/
def rgbDistSq (a t : Col) : ℚ :=
  ((a 0 - t 0) ^ 2 + (a 1 - t 1) ^ 2 + (a 2 - t 2) ^ 2 : ℤ)

/-- Squared LAB distance, `np.sum((self.colors_lab - target_lab) ** 2)`
(palette.py 91), with `np.sqrt` dropped as above. -/
def labDistSq (a b : Pix) : ℚ :=
  (a 0 - b 0) ^ 2 + (a 1 - b 1) ^ 2 + (a 2 - b 2) ^ 2

/-- `MinecraftPalette.find_closest_color_rgb` (palette.py 71–83). -/
def find_closest_color_rgb (colors : List Col) (target : Col) : ℕ × Col :=
  let distances := colors.map (fun pc => rgbDistSq pc target)
  let closest_idx := argmin distances
  (closest_idx, colors.getD closest_idx colDefault)

/-- `MinecraftPalette.find_closest_color_lab` (palette.py 85–97), parametric
in the `rgb_to_lab` conversion `labOf` (see file header). -/
def find_closest_color_lab (labOf : Col → Pix) (colors : List Col) (target : Col) :
    ℕ × Col :=
  let target_lab := labOf target
  let distances := colors.map (fun pc => labDistSq (labOf pc) target_lab)
  let closest_idx := argmin distances
  (closest_idx, colors.getD closest_idx colDefault)

/-- `MinecraftPalette.find_closest_color` (palette.py 99–113): dispatch on
`method.lower() == "lab"`.  The embedding compares against the lowercase
literal directly (`String.toLower` is well-founded recursion the kernel
cannot evaluate); every call site in the dithering core passes exactly
`"lab"` (dithering.py 71, 205). -/
def find_closest_color (labOf : Col → Pix) (colors : List Col) (target : Col)
    (method : String) : ℕ × Col :=
  if method = "lab" then find_closest_color_lab labOf colors target
  else find_closest_color_rgb colors target

/-- The ditherer's palette state after `MinecraftDitherer.__init__`. -/
structure Ditherer where
  colors : List Col
deriving DecidableEq, Repr

/-- `MinecraftDitherer.__init__` (dithering.py 24–50): build the default
palette, then — only when `custom_colors` is *truthy* (a non-`None`,
*non-empty* list; Python's `if custom_colors:`) — rebuild the palette from
the custom colors. -/
def MinecraftDitherer.init (custom_colors : Option (List HexColor)) :
    Except DitherError Ditherer := do
  let base ← MinecraftPalette.init CARPET_COLORS
  match custom_colors with
  | some cs =>
    if cs = [] then .ok ⟨base⟩
    else do
      let p ← MinecraftPalette.init cs
      .ok ⟨p⟩
  | none => .ok ⟨base⟩

theorem getD_map_of_lt {α β : Type} (l : List α) (f : α → β) (dα : α) (dβ : β) :
    ∀ (j : ℕ), j < l.length → (l.map f).getD j dβ = f (l.getD j dα) := by
  induction l with
  | nil => intro j hj; simp at hj
  | cons a as ih =>
    intro j hj
    cases j with
    | zero => simp
    | succ j => simpa using ih j (by simpa using hj)

theorem argminMap_spec (colors : List Col) (f : Col → ℚ) (hne : colors ≠ []) :
    argmin (colors.map f) < colors.length ∧
    (∀ j, j < colors.length →
      f (colors.getD (argmin (colors.map f)) colDefault) ≤ f (colors.getD j colDefault)) ∧
    (∀ j, j < argmin (colors.map f) →
      f (colors.getD (argmin (colors.map f)) colDefault) < f (colors.getD j colDefault)) := by
  have hmapne : colors.map f ≠ [] := by
    intro h; exact hne (List.map_eq_nil_iff.mp h)
  have hlen : (colors.map f).length = colors.length := List.length_map _ _
  have hidx : argmin (colors.map f) < colors.length := by
    rw [← hlen]; exact argmin_lt_length _ hmapne
  refine ⟨hidx, ?_, ?_⟩
  · intro j hj
    have := argmin_le (colors.map f) j (by rwa [hlen])
    rwa [getD_map_of_lt colors f colDefault 0 _ hidx,
         getD_map_of_lt colors f colDefault 0 j hj] at this
  · intro j hj
    have := argmin_first (colors.map f) j hj
    rwa [getD_map_of_lt colors f colDefault 0 _ hidx,
         getD_map_of_lt colors f colDefault 0 j (lt_trans hj hidx)] at this

theorem argminMap_zero (colors : List Col) (f : Col → ℚ) (hne : colors ≠ [])
    (h0 : ∀ j, j < colors.length →
      f (colors.getD 0 colDefault) ≤ f (colors.getD j colDefault)) :
    argmin (colors.map f) = 0 := by
  obtain ⟨hidx, _, hfirst⟩ := argminMap_spec colors f hne
  by_contra hne0
  have hpos : 0 < argmin (colors.map f) := Nat.pos_of_ne_zero hne0
  have h1 := hfirst 0 hpos
  have h2 := h0 (argmin (colors.map f)) hidx
  exact absurd (lt_of_le_of_lt h2 h1) (lt_irrefl _)

/-- C2: for every target color and every non-empty palette, nearest-color
lookup — under both the (parametric) LAB metric and the raw-RGB metric —
returns an in-range index whose entry it also returns, the entry's distance
is minimal over the palette, every strictly earlier entry is strictly
farther (so the returned index is the lowest index achieving the minimum),
and whenever the first palette entry already achieves the minimum (in
particular when the first two entries are identical colors) index 0 is
returned. -/
theorem C2_nearest_returns_lowest_min_index (labOf : Col → Pix) (colors : List Col)
    (target : Col) (hne : colors ≠ []) :
    ((find_closest_color_rgb colors target).1 < colors.length ∧
     (find_closest_color_rgb colors target).2 =
       colors.getD (find_closest_color_rgb colors target).1 colDefault ∧
     (∀ j, j < colors.length →
       rgbDistSq (colors.getD (find_closest_color_rgb colors target).1 colDefault) target ≤
         rgbDistSq (colors.getD j colDefault) target) ∧
     (∀ j, j < (find_closest_color_rgb colors target).1 →
       rgbDistSq (colors.getD (find_closest_color_rgb colors target).1 colDefault) target <
         rgbDistSq (colors.getD j colDefault) target)) ∧
    ((find_closest_color_lab labOf colors target).1 < colors.length ∧
     (find_closest_color_lab labOf colors target).2 =
       colors.getD (find_closest_color_lab labOf colors target).1 colDefault ∧
     (∀ j, j < colors.length →
       labDistSq (labOf (colors.getD (find_closest_color_lab labOf colors target).1 colDefault))
           (labOf target) ≤
         labDistSq (labOf (colors.getD j colDefault)) (labOf target)) ∧
     (∀ j, j < (find_closest_color_lab labOf colors target).1 →
       labDistSq (labOf (colors.getD (find_closest_color_lab labOf colors target).1 colDefault))
           (labOf target) <
         labDistSq (labOf (colors.getD j colDefault)) (labOf target))) ∧
    ((∀ j, j < colors.length →
        rgbDistSq (colors.getD 0 colDefault) target ≤
          rgbDistSq (colors.getD j colDefault) target) →
      (find_closest_color_rgb colors target).1 = 0) ∧
    ((∀ j, j < colors.length →
        labDistSq (labOf (colors.getD 0 colDefault)) (labOf target) ≤
          labDistSq (labOf (colors.getD j colDefault)) (labOf target)) →
      (find_closest_color_lab labOf colors target).1 = 0) := by
  obtain ⟨h1, h2, h3⟩ := argminMap_spec colors (fun pc => rgbDistSq pc target) hne
  obtain ⟨g1, g2, g3⟩ :=
    argminMap_spec colors (fun pc => labDistSq (labOf pc) (labOf target)) hne
  refine ⟨⟨h1, rfl, h2, h3⟩, ⟨g1, rfl, g2, g3⟩, ?_, ?_⟩
  · intro h0
    exact argminMap_zero colors (fun pc => rgbDistSq pc target) hne h0
  · intro h0
    exact argminMap_zero colors (fun pc => labDistSq (labOf pc) (labOf target)) hne h0

/-- The identity-style LAB conversion used to instantiate the parametric
conversion in concrete witnesses. -/
def labId : Col → Pix := fun c i => (c i : ℚ)

/-- Witness for C2 at a palette whose first two entries are the identical
color `#102030`: both metrics return index 0. -/
theorem C2_nearest_returns_lowest_min_index_witness :
    (find_closest_color_rgb [hex_to_rgb 0x102030, hex_to_rgb 0x102030] ![0, 0, 0]).1 = 0 ∧
    (find_closest_color_lab labId [hex_to_rgb 0x102030, hex_to_rgb 0x102030] ![0, 0, 0]).1 = 0 := by
  have h := C2_nearest_returns_lowest_min_index labId
    [hex_to_rgb 0x102030, hex_to_rgb 0x102030] ![0, 0, 0] (by decide)
  refine ⟨h.2.2.1 ?_, h.2.2.2 ?_⟩
  · intro j hj
    have hj2 : j < 2 := by simpa using hj
    interval_cases j <;> simp [rgbDistSq, hex_to_rgb, colDefault]
  · intro j hj
    have hj2 : j < 2 := by simpa using hj
    interval_cases j <;> simp [labDistSq, labId, hex_to_rgb, colDefault]

/-! ## Pointwise evaluation of `_apply_error_diffusion` -/

theorem neighborRow_zero (y : ℤ) : neighborRow y 0 = y + 1 := by
  simp [neighborRow]

theorem neighborRow_one (y : ℤ) : neighborRow y 1 = y + 2 := by
  simp [neighborRow]; ring

theorem neighborCol_zero (x : ℤ) : neighborCol x 0 = x - 1 := by
  simp [neighborCol]

theorem neighborCol_one (x : ℤ) : neighborCol x 1 = x := by
  simp [neighborCol]

theorem neighborCol_two (x : ℤ) : neighborCol x 2 = x + 1 := by
  simp [neighborCol]; ring

theorem matWeight_00 : matWeight 0 0 = 0 := rfl
theorem matWeight_01 : matWeight 0 1 = 0 := rfl
theorem matWeight_02 : matWeight 0 2 = 7/16 := rfl
theorem matWeight_10 : matWeight 1 0 = 3/16 := rfl
theorem matWeight_11 : matWeight 1 1 = 5/16 := rfl
theorem matWeight_12 : matWeight 1 2 = 1/16 := rfl

/-- The two zero-weight stencil entries never write (`if weight > 0`,
dithering.py 101). -/
theorem diffuseStep_w00 (W H x y : ℤ) (e : Pix) (b : Buf) :
    diffuseStep W H x y e b (0, 0) = b := by
  simp [diffuseStep, matWeight_00]

theorem diffuseStep_w01 (W H x y : ℤ) (e : Pix) (b : Buf) :
    diffuseStep W H x y e b (0, 1) = b := by
  simp [diffuseStep, matWeight_01]

/-- A stencil step leaves every point other than its own target unchanged. -/
theorem diffuseStep_ne (W H x y : ℤ) (e : Pix) (b : Buf) (d : ℕ × ℕ) (i j : ℤ)
    (g : ¬(i = neighborRow y d.1 ∧ j = neighborCol x d.2)) :
    diffuseStep W H x y e b d i j = b i j := by
  simp only [diffuseStep]
  split_ifs with h1 h2 <;> try rfl
  simp only [pointUpdate]
  rw [if_neg g]

/-- A stencil step leaves every out-of-bounds point unchanged (the guard of
dithering.py 97). -/
theorem diffuseStep_oob (W H x y : ℤ) (e : Pix) (b : Buf) (d : ℕ × ℕ) (i j : ℤ)
    (g : ¬ inb W H j i) :
    diffuseStep W H x y e b d i j = b i j := by
  simp only [diffuseStep]
  split_ifs with h1 h2 <;> try rfl
  simp only [pointUpdate]
  by_cases h3 : i = neighborRow y d.1 ∧ j = neighborCol x d.2
  · obtain ⟨hi, hj⟩ := h3
    subst hi; subst hj
    exact absurd h1 g
  · rw [if_neg h3]

/-- C4: error diffusion only ever writes in-bounds working-buffer
coordinates: every point `(row i, col j)` outside
`0 ≤ j < width ∧ 0 ≤ i < height` is left unchanged by
`_apply_error_diffusion` — out-of-bounds neighbors are skipped silently,
with no wraparound, for every image size (including 1×1, 1×N and N×1) and
every pixel position (including the leftmost/rightmost columns and the
bottom row). -/
theorem C4_error_diffusion_bounds_safe (W H x y : ℤ) (e : Pix) (b : Buf) (i j : ℤ)
    (g : ¬ inb W H j i) :
    applyErrorDiffusion W H x y e b i j = b i j := by
  have s : ∀ (b' : Buf) (d : ℕ × ℕ), diffuseStep W H x y e b' d i j = b' i j :=
    fun b' d => diffuseStep_oob W H x y e b' d i j g
  unfold applyErrorDiffusion stencilCoords
  simp only [List.foldl_cons, List.foldl_nil, s]

/-- Witness for C4 on a 1×1 image: the out-of-bounds point (1, 1) is
untouched when diffusing from the only pixel (0, 0). -/
theorem C4_error_diffusion_bounds_safe_witness :
    ¬ inb 1 1 1 1 ∧
    applyErrorDiffusion 1 1 0 0 (fun _ => 16) (fun _ _ _ => 128) 1 1 =
      (fun _ _ (_ : Fin 3) => (128 : ℚ)) 1 1 := by
  refine ⟨by decide, ?_⟩
  exact C4_error_diffusion_bounds_safe 1 1 0 0 (fun _ => 16) (fun _ _ _ => 128) 1 1
    (by decide)

/-- A stencil step evaluated at its own target coordinates. -/
theorem diffuseStep_at (W H x y : ℤ) (e : Pix) (b : Buf) (d : ℕ × ℕ) :
    diffuseStep W H x y e b d (neighborRow y d.1) (neighborCol x d.2) =
      if inb W H (neighborCol x d.2) (neighborRow y d.1) then
        (if 0 < matWeight d.1 d.2 then
          (fun c => clampChan
            (b (neighborRow y d.1) (neighborCol x d.2) c + e c * matWeight d.1 d.2))
        else b (neighborRow y d.1) (neighborCol x d.2))
      else b (neighborRow y d.1) (neighborCol x d.2) := by
  simp only [diffuseStep]
  split_ifs with h1 h2
  · simp [pointUpdate]
  · rfl
  · rfl

/-- `_apply_error_diffusion` at the 7/16 target `(row y+1, col x+1)`. -/
theorem applyED_at_A (W H x y : ℤ) (e : Pix) (b : Buf) :
    applyErrorDiffusion W H x y e b (y+1) (x+1) =
      if inb W H (x+1) (y+1) then
        (fun c => clampChan (b (y+1) (x+1) c + e c * (7/16)))
      else b (y+1) (x+1) := by
  have p10 : ∀ u : Buf, diffuseStep W H x y e u (1,0) (y+1) (x+1) = u (y+1) (x+1) :=
    fun u => diffuseStep_ne W H x y e u (1,0) (y+1) (x+1)
      (by simp only [neighborRow, neighborCol]; push_cast; omega)
  have p11 : ∀ u : Buf, diffuseStep W H x y e u (1,1) (y+1) (x+1) = u (y+1) (x+1) :=
    fun u => diffuseStep_ne W H x y e u (1,1) (y+1) (x+1)
      (by simp only [neighborRow, neighborCol]; push_cast; omega)
  have p12 : ∀ u : Buf, diffuseStep W H x y e u (1,2) (y+1) (x+1) = u (y+1) (x+1) :=
    fun u => diffuseStep_ne W H x y e u (1,2) (y+1) (x+1)
      (by simp only [neighborRow, neighborCol]; push_cast; omega)
  have hA := diffuseStep_at W H x y e b (0,2)
  simp only [neighborRow_zero, neighborCol_two, matWeight_02] at hA
  rw [if_pos (show (0:ℚ) < 7/16 by norm_num)] at hA
  simp only [applyErrorDiffusion, stencilCoords, List.foldl_cons, List.foldl_nil,
    diffuseStep_w00, diffuseStep_w01, p10, p11, p12]
  exact hA

/-- `_apply_error_diffusion` at the 3/16 target `(row y+2, col x-1)`. -/
theorem applyED_at_B (W H x y : ℤ) (e : Pix) (b : Buf) :
    applyErrorDiffusion W H x y e b (y+2) (x-1) =
      if inb W H (x-1) (y+2) then
        (fun c => clampChan (b (y+2) (x-1) c + e c * (3/16)))
      else b (y+2) (x-1) := by
  have p02 : ∀ u : Buf, diffuseStep W H x y e u (0,2) (y+2) (x-1) = u (y+2) (x-1) :=
    fun u => diffuseStep_ne W H x y e u (0,2) (y+2) (x-1)
      (by simp only [neighborRow, neighborCol]; push_cast; omega)
  have p11 : ∀ u : Buf, diffuseStep W H x y e u (1,1) (y+2) (x-1) = u (y+2) (x-1) :=
    fun u => diffuseStep_ne W H x y e u (1,1) (y+2) (x-1)
      (by simp only [neighborRow, neighborCol]; push_cast; omega)
  have p12 : ∀ u : Buf, diffuseStep W H x y e u (1,2) (y+2) (x-1) = u (y+2) (x-1) :=
    fun u => diffuseStep_ne W H x y e u (1,2) (y+2) (x-1)
      (by simp only [neighborRow, neighborCol]; push_cast; omega)
  have hB := diffuseStep_at W H x y e (diffuseStep W H x y e b (0,2)) (1,0)
  simp only [neighborRow_one, neighborCol_zero, matWeight_10] at hB
  rw [if_pos (show (0:ℚ) < 3/16 by norm_num)] at hB
  simp only [applyErrorDiffusion, stencilCoords, List.foldl_cons, List.foldl_nil,
    diffuseStep_w00, diffuseStep_w01, p11, p12]
  rw [hB]
  simp only [p02]

/-- `_apply_error_diffusion` at the 5/16 target `(row y+2, col x)`. -/
theorem applyED_at_C (W H x y : ℤ) (e : Pix) (b : Buf) :
    applyErrorDiffusion W H x y e b (y+2) x =
      if inb W H x (y+2) then
        (fun c => clampChan (b (y+2) x c + e c * (5/16)))
      else b (y+2) x := by
  have p02 : ∀ u : Buf, diffuseStep W H x y e u (0,2) (y+2) x = u (y+2) x :=
    fun u => diffuseStep_ne W H x y e u (0,2) (y+2) x
      (by simp only [neighborRow, neighborCol]; push_cast; omega)
  have p10 : ∀ u : Buf, diffuseStep W H x y e u (1,0) (y+2) x = u (y+2) x :=
    fun u => diffuseStep_ne W H x y e u (1,0) (y+2) x
      (by simp only [neighborRow, neighborCol]; push_cast; omega)
  have p12 : ∀ u : Buf, diffuseStep W H x y e u (1,2) (y+2) x = u (y+2) x :=
    fun u => diffuseStep_ne W H x y e u (1,2) (y+2) x
      (by simp only [neighborRow, neighborCol]; push_cast; omega)
  have hC := diffuseStep_at W H x y e
    (diffuseStep W H x y e (diffuseStep W H x y e b (0,2)) (1,0)) (1,1)
  simp only [neighborRow_one, neighborCol_one, matWeight_11] at hC
  rw [if_pos (show (0:ℚ) < 5/16 by norm_num)] at hC
  simp only [applyErrorDiffusion, stencilCoords, List.foldl_cons, List.foldl_nil,
    diffuseStep_w00, diffuseStep_w01, p12]
  rw [hC]
  simp only [p02, p10]

/-- `_apply_error_diffusion` at the 1/16 target `(row y+2, col x+1)`. -/
theorem applyED_at_D (W H x y : ℤ) (e : Pix) (b : Buf) :
    applyErrorDiffusion W H x y e b (y+2) (x+1) =
      if inb W H (x+1) (y+2) then
        (fun c => clampChan (b (y+2) (x+1) c + e c * (1/16)))
      else b (y+2) (x+1) := by
  have p02 : ∀ u : Buf, diffuseStep W H x y e u (0,2) (y+2) (x+1) = u (y+2) (x+1) :=
    fun u => diffuseStep_ne W H x y e u (0,2) (y+2) (x+1)
      (by simp only [neighborRow, neighborCol]; push_cast; omega)
  have p10 : ∀ u : Buf, diffuseStep W H x y e u (1,0) (y+2) (x+1) = u (y+2) (x+1) :=
    fun u => diffuseStep_ne W H x y e u (1,0) (y+2) (x+1)
      (by simp only [neighborRow, neighborCol]; push_cast; omega)
  have p11 : ∀ u : Buf, diffuseStep W H x y e u (1,1) (y+2) (x+1) = u (y+2) (x+1) :=
    fun u => diffuseStep_ne W H x y e u (1,1) (y+2) (x+1)
      (by simp only [neighborRow, neighborCol]; push_cast; omega)
  have hD := diffuseStep_at W H x y e
    (diffuseStep W H x y e
      (diffuseStep W H x y e (diffuseStep W H x y e b (0,2)) (1,0)) (1,1)) (1,2)
  simp only [neighborRow_one, neighborCol_two, matWeight_12] at hD
  rw [if_pos (show (0:ℚ) < 1/16 by norm_num)] at hD
  simp only [applyErrorDiffusion, stencilCoords, List.foldl_cons, List.foldl_nil,
    diffuseStep_w00, diffuseStep_w01]
  rw [hD]
  simp only [p02, p10, p11]

/-- `_apply_error_diffusion` at the zero-weight position `(row y+1, col x-1)`:
unchanged. -/
theorem applyED_at_Z1 (W H x y : ℤ) (e : Pix) (b : Buf) :
    applyErrorDiffusion W H x y e b (y+1) (x-1) = b (y+1) (x-1) := by
  have p02 : ∀ u : Buf, diffuseStep W H x y e u (0,2) (y+1) (x-1) = u (y+1) (x-1) :=
    fun u => diffuseStep_ne W H x y e u (0,2) (y+1) (x-1)
      (by simp only [neighborRow, neighborCol]; push_cast; omega)
  have p10 : ∀ u : Buf, diffuseStep W H x y e u (1,0) (y+1) (x-1) = u (y+1) (x-1) :=
    fun u => diffuseStep_ne W H x y e u (1,0) (y+1) (x-1)
      (by simp only [neighborRow, neighborCol]; push_cast; omega)
  have p11 : ∀ u : Buf, diffuseStep W H x y e u (1,1) (y+1) (x-1) = u (y+1) (x-1) :=
    fun u => diffuseStep_ne W H x y e u (1,1) (y+1) (x-1)
      (by simp only [neighborRow, neighborCol]; push_cast; omega)
  have p12 : ∀ u : Buf, diffuseStep W H x y e u (1,2) (y+1) (x-1) = u (y+1) (x-1) :=
    fun u => diffuseStep_ne W H x y e u (1,2) (y+1) (x-1)
      (by simp only [neighborRow, neighborCol]; push_cast; omega)
  simp only [applyErrorDiffusion, stencilCoords, List.foldl_cons, List.foldl_nil,
    diffuseStep_w00, diffuseStep_w01, p02, p10, p11, p12]

/-- `_apply_error_diffusion` at the zero-weight position `(row y+1, col x)`:
unchanged. -/
theorem applyED_at_Z2 (W H x y : ℤ) (e : Pix) (b : Buf) :
    applyErrorDiffusion W H x y e b (y+1) x = b (y+1) x := by
  have p02 : ∀ u : Buf, diffuseStep W H x y e u (0,2) (y+1) x = u (y+1) x :=
    fun u => diffuseStep_ne W H x y e u (0,2) (y+1) x
      (by simp only [neighborRow, neighborCol]; push_cast; omega)
  have p10 : ∀ u : Buf, diffuseStep W H x y e u (1,0) (y+1) x = u (y+1) x :=
    fun u => diffuseStep_ne W H x y e u (1,0) (y+1) x
      (by simp only [neighborRow, neighborCol]; push_cast; omega)
  have p11 : ∀ u : Buf, diffuseStep W H x y e u (1,1) (y+1) x = u (y+1) x :=
    fun u => diffuseStep_ne W H x y e u (1,1) (y+1) x
      (by simp only [neighborRow, neighborCol]; push_cast; omega)
  have p12 : ∀ u : Buf, diffuseStep W H x y e u (1,2) (y+1) x = u (y+1) x :=
    fun u => diffuseStep_ne W H x y e u (1,2) (y+1) x
      (by simp only [neighborRow, neighborCol]; push_cast; omega)
  simp only [applyErrorDiffusion, stencilCoords, List.foldl_cons, List.foldl_nil,
    diffuseStep_w00, diffuseStep_w01, p02, p10, p11, p12]

/-! ## C1: error conservation of the diffusion step -/

/-- Per-channel error actually added by `_apply_error_diffusion` to the
in-bounds stencil neighbors: the sum, over the six stencil positions that
pass the bounds check, of (new value − old value) at that position. -/
def addedSum (W H x y : ℤ) (e : Pix) (b : Buf) (c : Fin 3) : ℚ :=
  (stencilCoords.map (fun d =>
    if inb W H (neighborCol x d.2) (neighborRow y d.1) then
      applyErrorDiffusion W H x y e b (neighborRow y d.1) (neighborCol x d.2) c -
        b (neighborRow y d.1) (neighborCol x d.2) c
    else 0)).sum

/-- The sum of the kernel weights whose stencil position passes the bounds
check. -/
def inboundsWeightSum (W H x y : ℤ) : ℚ :=
  (stencilCoords.map (fun d =>
    if inb W H (neighborCol x d.2) (neighborRow y d.1) then matWeight d.1 d.2
    else 0)).sum

theorem clampChan_of_range (v : ℚ) (h0 : 0 ≤ v) (h1 : v ≤ 255) :
    clampChan v = v := by
  unfold clampChan
  rw [max_eq_left h0, min_eq_left h1]

/-- The concrete working buffer of the C1 counterexample: every channel
saturated at 255 (e.g. a white image whose nearest palette color is darker). -/
def bCE : Buf := fun _ _ _ => 255

/-- The concrete quantization error of the C1 counterexample: `+16` per
channel (an integer error in `[-255, 255]`, as produced by
`current_rgb - closest_rgb`). -/
def eCE : Pix := fun _ => 16

/-- Counterexample to C1 as stated: at pixel (x, y) = (0, 0) of a 2×2 buffer
whose channels are all 255 (in `[0, 255]`, as the per-write clamping
invariant guarantees) and integer error +16 per channel, the only in-bounds
weighted neighbor is already saturated, so the per-write clamp makes the
actually-added error 0, while `error × (sum of in-bounds weights)` is
`16 · 7/16 = 7`: the claimed conservation equality fails. -/
theorem C1_conservation_counterexample :
    (∀ (i j : ℤ) (c : Fin 3), 0 ≤ bCE i j c ∧ bCE i j c ≤ 255) ∧
    (∀ c : Fin 3, ∃ z : ℤ, eCE c = (z : ℚ) ∧ -255 ≤ z ∧ z ≤ 255) ∧
    addedSum 2 2 0 0 eCE bCE 0 = 0 ∧
    eCE 0 * inboundsWeightSum 2 2 0 0 = 7 ∧
    addedSum 2 2 0 0 eCE bCE 0 ≠ eCE 0 * inboundsWeightSum 2 2 0 0 := by
  have h1 : addedSum 2 2 0 0 eCE bCE 0 = 0 := by
    norm_num [addedSum, stencilCoords, applyErrorDiffusion, diffuseStep, pointUpdate,
      matWeight, errorMatrix, neighborRow, neighborCol, inb, bCE, eCE, clampChan,
      min_def, max_def]
  have h2 : eCE 0 * inboundsWeightSum 2 2 0 0 = 7 := by
    norm_num [inboundsWeightSum, stencilCoords, matWeight, errorMatrix,
      neighborRow, neighborCol, inb, eCE]
  exact ⟨fun i j c => ⟨by norm_num [bCE], by norm_num [bCE]⟩,
         fun c => ⟨16, by norm_num [eCE], by norm_num, by norm_num⟩,
         h1, h2, by rw [h1, h2]; norm_num⟩

/-- C1 (amended): for every pixel state reachable with diffusion enabled,
*provided no neighbor write is clamped* (each in-bounds neighbor channel
plus its weighted error stays within [0, 255]), the per-channel error
actually added to the in-bounds stencil neighbors equals the quantization
error times the sum of the in-bounds kernel weights; the four kernel
weights 7/16, 3/16, 5/16, 1/16 sum to exactly 1, and with no boundary
clipping the in-bounds weight sum is exactly 1, so the entire error is
distributed.  (Without the no-clamp proviso the equality fails — see the
counterexample.) -/
theorem C1_conservation_amended (W H x y : ℤ) (e : Pix) (b : Buf)
    (g : ∀ d ∈ stencilCoords, ∀ c : Fin 3,
      inb W H (neighborCol x d.2) (neighborRow y d.1) →
      0 ≤ b (neighborRow y d.1) (neighborCol x d.2) c + e c * matWeight d.1 d.2 ∧
      b (neighborRow y d.1) (neighborCol x d.2) c + e c * matWeight d.1 d.2 ≤ 255) :
    (∀ c : Fin 3, addedSum W H x y e b c = e c * inboundsWeightSum W H x y) ∧
    matWeight 0 2 + matWeight 1 0 + matWeight 1 1 + matWeight 1 2 = 1 ∧
    (inb W H (x+1) (y+1) → inb W H (x-1) (y+2) → inb W H x (y+2) → inb W H (x+1) (y+2) →
      inboundsWeightSum W H x y = 1) := by
  have g02 := g (0,2) (by simp [stencilCoords])
  have g10 := g (1,0) (by simp [stencilCoords])
  have g11 := g (1,1) (by simp [stencilCoords])
  have g12 := g (1,2) (by simp [stencilCoords])
  simp only [neighborRow_zero, neighborRow_one, neighborCol_zero, neighborCol_one,
    neighborCol_two, matWeight_02, matWeight_10, matWeight_11, matWeight_12]
    at g02 g10 g11 g12
  refine ⟨?_, by norm_num [matWeight_02, matWeight_10, matWeight_11, matWeight_12], ?_⟩
  · intro c
    have uA : inb W H (x+1) (y+1) →
        clampChan (b (y+1) (x+1) c + e c * (7/16)) = b (y+1) (x+1) c + e c * (7/16) :=
      fun hA => clampChan_of_range _ ((g02 c hA).1) ((g02 c hA).2)
    have uB : inb W H (x-1) (y+2) →
        clampChan (b (y+2) (x-1) c + e c * (3/16)) = b (y+2) (x-1) c + e c * (3/16) :=
      fun hB => clampChan_of_range _ ((g10 c hB).1) ((g10 c hB).2)
    have uC : inb W H x (y+2) →
        clampChan (b (y+2) x c + e c * (5/16)) = b (y+2) x c + e c * (5/16) :=
      fun hC => clampChan_of_range _ ((g11 c hC).1) ((g11 c hC).2)
    have uD : inb W H (x+1) (y+2) →
        clampChan (b (y+2) (x+1) c + e c * (1/16)) = b (y+2) (x+1) c + e c * (1/16) :=
      fun hD => clampChan_of_range _ ((g12 c hD).1) ((g12 c hD).2)
    simp only [addedSum, inboundsWeightSum, stencilCoords, List.map_cons, List.map_nil,
      List.sum_cons, List.sum_nil, neighborRow_zero, neighborRow_one, neighborCol_zero,
      neighborCol_one, neighborCol_two, matWeight_00, matWeight_01, matWeight_02,
      matWeight_10, matWeight_11, matWeight_12, applyED_at_A, applyED_at_B,
      applyED_at_C, applyED_at_D, applyED_at_Z1, applyED_at_Z2, sub_self, ite_self]
    by_cases hA : inb W H (x+1) (y+1) <;>
      by_cases hB : inb W H (x-1) (y+2) <;>
        by_cases hC : inb W H x (y+2) <;>
          by_cases hD : inb W H (x+1) (y+2)
    all_goals simp only [hA, hB, hC, hD, if_true, if_false, ite_true, ite_false]
    all_goals try rw [uA hA]
    all_goals try rw [uB hB]
    all_goals try rw [uC hC]
    all_goals try rw [uD hD]
    all_goals ring
  · intro hA hB hC hD
    simp only [inboundsWeightSum, stencilCoords, List.map_cons, List.map_nil,
      List.sum_cons, List.sum_nil, neighborRow_zero, neighborRow_one, neighborCol_zero,
      neighborCol_one, neighborCol_two, matWeight_00, matWeight_01, matWeight_02,
      matWeight_10, matWeight_11, matWeight_12, hA, hB, hC, hD, if_true, ite_self]
    norm_num

/-- The in-range working buffer of the C1 witness (all channels 128). -/
def bW : Buf := fun _ _ _ => 128

/-- The error of the C1 witness (+16 per channel). -/
def eW : Pix := fun _ => 16

/-- Witness for C1 (amended) at a fully interior pixel (x, y) = (1, 0) of a
3×3 buffer of 128s with error +16: no clamp binds, all four weighted
neighbors are in bounds, and the in-bounds weight sum is exactly 1. -/
theorem C1_conservation_amended_witness :
    addedSum 3 3 1 0 eW bW 0 = eW 0 * inboundsWeightSum 3 3 1 0 ∧
    inboundsWeightSum 3 3 1 0 = 1 := by
  have h := C1_conservation_amended 3 3 1 0 eW bW (by
    intro d hd c _
    simp only [stencilCoords, List.mem_cons, List.not_mem_nil, or_false] at hd
    rcases hd with rfl | rfl | rfl | rfl | rfl | rfl <;>
      norm_num [matWeight, errorMatrix, bW, eW])
  refine ⟨h.1 0, h.2.2 ?_ ?_ ?_ ?_⟩ <;> norm_num [inb]

/-! ## The dithering pipeline (src/src/dithering.py, src/src/image_utils.py) -/

/-- numpy `astype(int)`: truncation toward zero. -/
def truncToInt (q : ℚ) : ℤ := if 0 ≤ q then ⌊q⌋ else -⌊-q⌋

/-- A decoded PIL image: explicit size, pixel mode string, and RGB pixel
data (numpy-indexed `pix row col`). -/
structure PImage where
  width : ℕ
  height : ℕ
  mode : String
  pix : ℤ → ℤ → Col

/-- `ImageProcessor.validate_image_for_processing` (image_utils.py 211–235):
a *pure classifier* returning `(is_valid, message)`; it raises nothing.  The
interpolated mode string of the source's third message is elided. -/
def validate_image_for_processing : Option PImage → Bool × String
  | none => (false, "Image is None")
  | some img =>
    if img.width = 0 ∨ img.height = 0 then (false, "Image has zero dimensions")
    else if ¬ (img.mode = "RGB" ∨ img.mode = "RGBA" ∨ img.mode = "L" ∨ img.mode = "P") then
      (false, "Unsupported image mode")
    else if 4194304 < img.width * img.height then
      (false, "Image is too large (max 2048x2048)")
    else (true, "Image is valid for processing")

/-- `current_rgb = tuple(image_array[y, x].astype(int))` (dithering.py 145):
the value handed to the palette lookup is the current working-buffer pixel
with each channel *truncated* to an integer. -/
def lookupInput (b : Buf) (x y : ℤ) : Col := fun c => truncToInt (b y x c)

/-- `MinecraftDitherer._find_closest_color` (dithering.py 61–76):
LAB-method palette lookup plus the float error
`error = np.array(rgb) - np.array(closest_rgb)`. -/
def findClosestWithError (labOf : Col → Pix) (colors : List Col) (rgb : Col) :
    ℕ × Col × Pix :=
  let r := find_closest_color labOf colors rgb "lab"
  (r.1, r.2, fun c => (rgb c : ℚ) - (r.2 c : ℚ))

/-- The mutable per-run state of `dither_image`: the float working array,
the `uint8` output array, and the progress counters
(`self.processed_pixels`, `self.total_pixels`). -/
structure DitherState where
  working : Buf
  output : OutBuf
  processed : ℕ
  total : ℕ

/-- The body of the pixel loop (dithering.py 144–159) at `p = (y, x)`: read
the current working value truncated to integers, look up the nearest palette
color, write it to the output array, diffuse the error into the working
array, and advance the processed counter.  (The progress callback receives
the counters and returns nothing, so it does not appear in the state.) -/
def ditherPixel (labOf : Col → Pix) (colors : List Col) (W H : ℕ)
    (s : DitherState) (p : ℕ × ℕ) : DitherState :=
  let y : ℤ := p.1
  let x : ℤ := p.2
  let current_rgb := lookupInput s.working x y
  let r := findClosestWithError labOf colors current_rgb
  { working := applyErrorDiffusion (W : ℤ) (H : ℤ) x y r.2.2 s.working
    output := fun i j => if i = y ∧ j = x then r.2.1 else s.output i j
    processed := s.processed + 1
    total := s.total }

/-- Row-major visiting order of `for y in range(height): for x in range(width)`
(dithering.py 142–143), as a list of `(y, x)` pairs. -/
def pixelList (W H : ℕ) : List (ℕ × ℕ) :=
  (List.range H).flatMap (fun y => (List.range W).map (fun x => (y, x)))

/-- The full pixel sweep of `dither_image` (dithering.py 142–159). -/
def ditherSweep (labOf : Col → Pix) (colors : List Col) (W H : ℕ)
    (s : DitherState) : DitherState :=
  (pixelList W H).foldl (ditherPixel labOf colors W H) s

/-- `MinecraftDitherer.dither_image` (dithering.py 110–168).  The optional
resize step (`ImageProcessor.resize_for_minecraft`, a deterministic function
of the image built from LANCZOS resampling, which is not exactly
representable) is the abstract parameter `resizeFn`.  `processed0`/`total0`
are the ditherer's counter state *before* the call; lines 133–134 reset both,
so they are dead inputs.  The working array is
`image_to_array(image).astype(np.float64)` — a fresh copy of the image's
pixel data; the output array starts as `np.zeros_like`. -/
def dither_image (labOf : Col → Pix) (colors : List Col) (resizeFn : PImage → PImage)
    (resize_for_minecraft : Bool) (img : PImage) (processed0 total0 : ℕ) : DitherState :=
  let image := if resize_for_minecraft then resizeFn img else img
  let W := image.width
  let H := image.height
  let s0 : DitherState :=
    { working := fun i j c => ((image.pix i j c : ℤ) : ℚ)
      output := fun _ _ _ => 0
      processed := 0
      total := H * W }
  ditherSweep labOf colors W H s0

/-- One pixel of `_create_quantized_image` (dithering.py 202–206): match the
*untouched* integer source value, write the chosen color, diffuse nothing. -/
def quantPixel (labOf : Col → Pix) (colors : List Col) (img : PImage)
    (out : OutBuf) (p : ℕ × ℕ) : OutBuf :=
  let r := find_closest_color labOf colors (img.pix (p.1 : ℤ) (p.2 : ℤ)) "lab"
  fun i j => if i = (p.1 : ℤ) ∧ j = (p.2 : ℤ) then r.2 else out i j

/-- `MinecraftDitherer._create_quantized_image` (dithering.py 195–208):
the same row-major sweep, but with no error diffusion and no working-buffer
mutation; the output array starts as `np.zeros_like`. -/
def create_quantized_image (labOf : Col → Pix) (colors : List Col) (img : PImage) :
    OutBuf :=
  (pixelList img.width img.height).foldl (quantPixel labOf colors img)
    (fun _ _ _ => 0)

theorem find_closest_color_lab_method (labOf : Col → Pix) (colors : List Col)
    (t : Col) :
    find_closest_color labOf colors t "lab" = find_closest_color_lab labOf colors t := by
  unfold find_closest_color
  rw [if_pos rfl]

/-- The sweep's working and output arrays do not depend on the incoming
counter values: only `processed`/`total` carry them. -/
theorem sweep_counters_dont_affect_buffers (labOf : Col → Pix) (colors : List Col)
    (W H : ℕ) :
    ∀ (L : List (ℕ × ℕ)) (w : Buf) (o : OutBuf) (p1 t1 p2 t2 : ℕ),
      (L.foldl (ditherPixel labOf colors W H) ⟨w, o, p1, t1⟩).working =
        (L.foldl (ditherPixel labOf colors W H) ⟨w, o, p2, t2⟩).working ∧
      (L.foldl (ditherPixel labOf colors W H) ⟨w, o, p1, t1⟩).output =
        (L.foldl (ditherPixel labOf colors W H) ⟨w, o, p2, t2⟩).output := by
  intro L
  induction L with
  | nil => intro w o p1 t1 p2 t2; exact ⟨rfl, rfl⟩
  | cons p L ih =>
    intro w o p1 t1 p2 t2
    simp only [List.foldl_cons]
    exact ih _ _ (p1 + 1) t1 (p2 + 1) t2

/-- C8: determinism — `dither_image` is a pure function of the source
buffer, the palette, the LAB conversion, and the resize option; in
particular two runs from arbitrary (different) prior progress-counter
states produce identical working and output buffers, because lines 133–134
reset the counters, and the sweep itself threads the counters without ever
reading them into the buffers.  There is no hidden randomness. -/
theorem C8_dither_image_deterministic (labOf : Col → Pix) (colors : List Col)
    (resizeFn : PImage → PImage) (rm : Bool) (img : PImage) (p1 t1 p2 t2 : ℕ) :
    dither_image labOf colors resizeFn rm img p1 t1 =
      dither_image labOf colors resizeFn rm img p2 t2 ∧
    (∀ (L : List (ℕ × ℕ)) (W H : ℕ) (w : Buf) (o : OutBuf),
      (L.foldl (ditherPixel labOf colors W H) ⟨w, o, p1, t1⟩).output =
        (L.foldl (ditherPixel labOf colors W H) ⟨w, o, p2, t2⟩).output) :=
  ⟨rfl, fun L W H w o =>
    (sweep_counters_dont_affect_buffers labOf colors W H L w o p1 t1 p2 t2).2⟩

theorem getD_mem_of_lt {α : Type} (l : List α) (n : ℕ) (d : α) (h : n < l.length) :
    l.getD n d ∈ l := by
  rw [List.getD_eq_getElem l d h]
  exact List.getElem_mem h

/-- The chosen color of `_find_closest_color` is a palette entry. -/
theorem findClosestWithError_mem (labOf : Col → Pix) (colors : List Col) (rgb : Col)
    (hne : colors ≠ []) :
    (findClosestWithError labOf colors rgb).2.1 ∈ colors := by
  unfold findClosestWithError
  rw [find_closest_color_lab_method]
  unfold find_closest_color_lab
  refine getD_mem_of_lt colors _ colDefault ?_
  have := argmin_lt_length
    (colors.map (fun pc => labDistSq (labOf pc) (labOf rgb))) ?_
  · rwa [List.length_map] at this
  · intro hmap
    exact hne (List.map_eq_nil_iff.mp hmap)

/-- The chosen color of `find_closest_color` under any method string is a
palette entry. -/
theorem find_closest_color_mem (labOf : Col → Pix) (colors : List Col) (rgb : Col)
    (m : String) (hne : colors ≠ []) :
    (find_closest_color labOf colors rgb m).2 ∈ colors := by
  have hmapne : ∀ f : Col → ℚ, colors.map f ≠ [] := by
    intro f hmap
    exact hne (List.map_eq_nil_iff.mp hmap)
  unfold find_closest_color find_closest_color_lab find_closest_color_rgb
  split_ifs
  · refine getD_mem_of_lt colors _ colDefault ?_
    have := argmin_lt_length (colors.map (fun pc => labDistSq (labOf pc) (labOf rgb)))
      (hmapne _)
    rwa [List.length_map] at this
  · refine getD_mem_of_lt colors _ colDefault ?_
    have := argmin_lt_length (colors.map (fun pc => rgbDistSq pc rgb)) (hmapne _)
    rwa [List.length_map] at this

theorem pixelList_mem (W H y x : ℕ) : (y, x) ∈ pixelList W H ↔ y < H ∧ x < W := by
  simp [pixelList, List.mem_flatMap]

/-- Output cells already holding a palette color keep holding one across the
rest of the sweep. -/
theorem sweep_output_preserved (labOf : Col → Pix) (colors : List Col) (W H : ℕ)
    (hne : colors ≠ []) :
    ∀ (L : List (ℕ × ℕ)) (s : DitherState) (i j : ℤ),
      s.output i j ∈ colors →
      (L.foldl (ditherPixel labOf colors W H) s).output i j ∈ colors := by
  intro L
  induction L with
  | nil => intro s i j h; exact h
  | cons p L ih =>
    intro s i j h
    simp only [List.foldl_cons]
    refine ih _ i j ?_
    show (ditherPixel labOf colors W H s p).output i j ∈ colors
    simp only [ditherPixel]
    split_ifs with hc
    · exact findClosestWithError_mem labOf colors _ hne
    · exact h

/-- Every output cell whose coordinates occur in the sweep list holds a
palette color afterwards. -/
theorem sweep_output_written (labOf : Col → Pix) (colors : List Col) (W H : ℕ)
    (hne : colors ≠ []) :
    ∀ (L : List (ℕ × ℕ)) (s : DitherState) (y x : ℕ), (y, x) ∈ L →
      (L.foldl (ditherPixel labOf colors W H) s).output (y : ℤ) (x : ℤ) ∈ colors := by
  intro L
  induction L with
  | nil => intro s y x h; simp at h
  | cons p L ih =>
    intro s y x h
    rcases List.mem_cons.mp h with h | h
    · subst h
      simp only [List.foldl_cons]
      refine sweep_output_preserved labOf colors W H hne L _ _ _ ?_
      show (ditherPixel labOf colors W H s (y, x)).output (y : ℤ) (x : ℤ) ∈ colors
      simp only [ditherPixel]
      rw [if_pos ⟨trivial, trivial⟩]
      exact findClosestWithError_mem labOf colors _ hne
    · simp only [List.foldl_cons]
      exact ih _ y x h

theorem quant_output_preserved (labOf : Col → Pix) (colors : List Col) (img : PImage)
    (hne : colors ≠ []) :
    ∀ (L : List (ℕ × ℕ)) (out : OutBuf) (i j : ℤ),
      out i j ∈ colors →
      (L.foldl (quantPixel labOf colors img) out) i j ∈ colors := by
  intro L
  induction L with
  | nil => intro out i j h; exact h
  | cons p L ih =>
    intro out i j h
    simp only [List.foldl_cons]
    refine ih _ i j ?_
    show quantPixel labOf colors img out p i j ∈ colors
    simp only [quantPixel]
    split_ifs with hc
    · exact find_closest_color_mem labOf colors _ "lab" hne
    · exact h

theorem quant_output_written (labOf : Col → Pix) (colors : List Col) (img : PImage)
    (hne : colors ≠ []) :
    ∀ (L : List (ℕ × ℕ)) (out : OutBuf) (y x : ℕ), (y, x) ∈ L →
      (L.foldl (quantPixel labOf colors img) out) (y : ℤ) (x : ℤ) ∈ colors := by
  intro L
  induction L with
  | nil => intro out y x h; simp at h
  | cons p L ih =>
    intro out y x h
    rcases List.mem_cons.mp h with h | h
    · subst h
      simp only [List.foldl_cons]
      refine quant_output_preserved labOf colors img hne L _ _ _ ?_
      show quantPixel labOf colors img out (y, x) (y : ℤ) (x : ℤ) ∈ colors
      simp only [quantPixel]
      rw [if_pos ⟨trivial, trivial⟩]
      exact find_closest_color_mem labOf colors _ "lab" hne
    · simp only [List.foldl_cons]
      exact ih _ y x h

/-- C9: for every input image and every non-empty palette, every pixel of
the output buffer written by `dither_image` (at in-range coordinates, in
the non-resizing configuration; resizing only substitutes the resized image
as the swept source, first conjunct) is exactly one of the palette's RGB
colors, and so is every pixel of the quantize-only buffer of
`_create_quantized_image`. -/
theorem C9_output_pixels_in_palette (labOf : Col → Pix) (colors : List Col)
    (resizeFn : PImage → PImage) (img : PImage) (p0 t0 : ℕ)
    (hne : colors ≠ []) :
    (dither_image labOf colors resizeFn true img p0 t0 =
      dither_image labOf colors resizeFn false (resizeFn img) p0 t0) ∧
    (∀ y x : ℕ, y < img.height → x < img.width →
      (dither_image labOf colors resizeFn false img p0 t0).output (y : ℤ) (x : ℤ) ∈
        colors) ∧
    (∀ y x : ℕ, y < img.height → x < img.width →
      create_quantized_image labOf colors img (y : ℤ) (x : ℤ) ∈ colors) := by
  refine ⟨rfl, ?_, ?_⟩
  · intro y x hy hx
    exact sweep_output_written labOf colors img.width img.height hne
      (pixelList img.width img.height) _ y x
      ((pixelList_mem img.width img.height y x).mpr ⟨hy, hx⟩)
  · intro y x hy hx
    exact quant_output_written labOf colors img hne
      (pixelList img.width img.height) _ y x
      ((pixelList_mem img.width img.height y x).mpr ⟨hy, hx⟩)

/-- The 1×1 all-gray image used by concrete witnesses. -/
def imgGray1 : PImage := ⟨1, 1, "RGB", fun _ _ _ => 128⟩

/-- Witness for C9 on a 1×1 gray image against the default 61-color palette:
the single output pixel of both products is a palette color. -/
theorem C9_output_pixels_in_palette_witness :
    (dither_image labId (CARPET_COLORS.map hex_to_rgb) id false imgGray1 0 0).output 0 0 ∈
      CARPET_COLORS.map hex_to_rgb ∧
    create_quantized_image labId (CARPET_COLORS.map hex_to_rgb) imgGray1 0 0 ∈
      CARPET_COLORS.map hex_to_rgb := by
  have h := C9_output_pixels_in_palette labId (CARPET_COLORS.map hex_to_rgb) id
    imgGray1 0 0 (by decide)
  exact ⟨h.2.1 0 0 (by decide) (by decide), h.2.2 0 0 (by decide) (by decide)⟩

/-! ## C3: the value passed to the palette lookup -/

/-- What the claim asserts the lookup input to be: each channel *rounded*
and clamped to the 0–255 integer domain. -/
def roundClampSpec (q : ℚ) : ℤ := min 255 (max 0 (round q))

/-- Concrete two-color palette for the C3 counterexample run. -/
def colorsC3 : List Col := [fun _ => 0, fun _ => 16]

/-- Concrete 2×2 source image for the C3 counterexample run: every pixel
is (8, 8, 8), equidistant from both palette entries. -/
def imgC3 : PImage := ⟨2, 2, "RGB", fun _ _ _ => 8⟩

/-- The initial sweep state of `dither_image` on `imgC3` (resizing off). -/
def sInitC3 : DitherState :=
  { working := fun i j c => ((imgC3.pix i j c : ℤ) : ℚ)
    output := fun _ _ _ => 0
    processed := 0
    total := 4 }

/-- The sweep state after the first three pixels (0,0), (0,1), (1,0) of the
row-major order — exactly the prefix of `pixelList 2 2` before (1,1). -/
def s3C3 : DitherState :=
  ([(0,0), (0,1), (1,0)] : List (ℕ × ℕ)).foldl (ditherPixel labId colorsC3 2 2) sInitC3

/-- Counterexample to C3 as stated: in a concrete full-dithering run (2×2
image of (8,8,8) against palette [(0,0,0), (16,16,16)]), after the first
three pixels the working value at (1,1) is 11.5 — pixel (0,0) chose
(0,0,0) by the first-entry tie-break, giving error +8, and 7/16·8 = 3.5 was
diffused to (1,1) — and the fourth pixel's lookup receives the truncation
11, not the claimed round-and-clamp 12. -/
theorem C3_lookup_rounding_counterexample :
    pixelList 2 2 = [(0,0), (0,1), (1,0), (1,1)] ∧
    s3C3.working 1 1 0 = 23/2 ∧
    lookupInput s3C3.working 1 1 0 = 11 ∧
    roundClampSpec (s3C3.working 1 1 0) = 12 ∧
    ¬ (∀ c : Fin 3, lookupInput s3C3.working 1 1 c = roundClampSpec (s3C3.working 1 1 c)) := by
  have hw : s3C3.working 1 1 0 = 23/2 := by
    norm_num [s3C3, sInitC3, imgC3, colorsC3, ditherPixel, lookupInput, truncToInt,
      findClosestWithError, find_closest_color, find_closest_color_lab, labDistSq, labId,
      argmin, colDefault, applyErrorDiffusion, stencilCoords, diffuseStep, pointUpdate,
      matWeight, errorMatrix, neighborRow, neighborCol, inb, clampChan, min_def, max_def,
      List.foldl_cons, List.foldl_nil]
  have hl : lookupInput s3C3.working 1 1 0 = 11 := by
    rw [show lookupInput s3C3.working 1 1 0 = truncToInt (s3C3.working 1 1 0) from rfl, hw]
    norm_num [truncToInt]
  have hr : roundClampSpec (s3C3.working 1 1 0) = 12 := by
    rw [show roundClampSpec (s3C3.working 1 1 0) = min 255 (max 0 (round (s3C3.working 1 1 0))) from rfl, hw]
    norm_num [round_eq]
  refine ⟨by decide, hw, hl, hr, ?_⟩
  intro hall
  have := hall 0
  rw [hl, hr] at this
  exact absurd this (by norm_num)

/-- C3 (amended): in full dithering mode the color passed to the palette
lookup at pixel (x, y) is the pixel's current working-buffer value with each
channel *truncated toward zero* (numpy `astype(int)`), not rounded; there is
no explicit clamp at the lookup, but whenever the working value lies in
[0, 255] — the invariant the per-write clamping maintains — the truncation
equals the floor and the resulting integer lies in the 0–255 domain.  The
second conjunct ties this to the pixel loop: the color the loop writes at
pixel p is the palette match of exactly this truncated value. -/
theorem C3_lookup_is_truncation (b : Buf) (x y : ℤ)
    (h : ∀ c : Fin 3, 0 ≤ b y x c ∧ b y x c ≤ 255) :
    (∀ c : Fin 3, lookupInput b x y c = ⌊b y x c⌋ ∧
      0 ≤ lookupInput b x y c ∧ lookupInput b x y c ≤ 255) ∧
    (∀ (labOf : Col → Pix) (colors : List Col) (W H : ℕ) (s : DitherState) (p : ℕ × ℕ),
      (ditherPixel labOf colors W H s p).output (p.1 : ℤ) (p.2 : ℤ) =
        (findClosestWithError labOf colors
          (lookupInput s.working (p.2 : ℤ) (p.1 : ℤ))).2.1) := by
  constructor
  · intro c
    obtain ⟨h0, h255⟩ := h c
    have hfl : lookupInput b x y c = ⌊b y x c⌋ := by
      simp only [lookupInput, truncToInt, if_pos h0]
    refine ⟨hfl, ?_, ?_⟩
    · rw [hfl]
      exact Int.le_floor.mpr (by exact_mod_cast h0)
    · rw [hfl]
      have := Int.floor_le_floor h255
      simpa using this
  · intro labOf colors W H s p
    simp [ditherPixel]

/-- An in-range working buffer with fractional channel values 11.5. -/
def b23 : Buf := fun _ _ _ => 23/2

/-- Witness for C3 (amended) at the in-range working value 11.5: the lookup
input is the truncation 11 (within 0..255). -/
theorem C3_lookup_is_truncation_witness :
    (∀ c : Fin 3, 0 ≤ b23 0 0 c ∧ b23 0 0 c ≤ 255) ∧
    lookupInput b23 0 0 0 = 11 ∧
    0 ≤ lookupInput b23 0 0 0 ∧ lookupInput b23 0 0 0 ≤ 255 := by
  have hy : ∀ c : Fin 3, 0 ≤ b23 0 0 c ∧ b23 0 0 c ≤ 255 :=
    fun c => ⟨by norm_num [b23], by norm_num [b23]⟩
  have h := (C3_lookup_is_truncation b23 0 0 hy).1 0
  refine ⟨hy, ?_, h.2.1, h.2.2⟩
  rw [h.1]
  norm_num [b23]

/-! ## C5, C6, C7, C10 -/

/-- C5: evaluating the code at the failing input.  Constructing a palette
from an empty color sequence does fail at construction time
(palette.py 29–30 raises; the spec's name for that typed error is
`InvalidPaletteError`), and a constructed palette is never empty — but
`MinecraftDitherer([])` does *not* fail: Python's `if custom_colors:`
(dithering.py 34) is falsy for the empty list, so the ditherer silently
keeps the default 61-color palette, contradicting the claim and the
repository's own test (test_phase2.py, "Should have failed with empty
palette"). -/
theorem C5_empty_custom_palette_not_rejected :
    MinecraftPalette.init [] = .error .invalidPalette ∧
    MinecraftPalette.init CARPET_COLORS = .ok (CARPET_COLORS.map hex_to_rgb) ∧
    MinecraftDitherer.init (some []) = MinecraftDitherer.init none ∧
    MinecraftDitherer.init (some []) = .ok ⟨CARPET_COLORS.map hex_to_rgb⟩ ∧
    MinecraftDitherer.init (some []) ≠ .error .invalidPalette := by
  refine ⟨rfl, rfl, rfl, rfl, ?_⟩
  intro h
  rw [show MinecraftDitherer.init (some []) =
        .ok ⟨CARPET_COLORS.map hex_to_rgb⟩ from rfl] at h
  exact Except.noConfusion h

/-- The 0×0 image of the C6 counterexample. -/
def img0 : PImage := ⟨0, 0, "RGB", fun _ _ _ => 0⟩

/-- Counterexample to C6 as stated: a zero-dimension source image is *not*
rejected — `dither_image` performs no validation call and no raise; on the
0×0 image (resizing off) the sweep is empty and a completed (zero-size,
all-zero) output buffer is observable, with the run finishing normally,
even though the unused helper `validate_image_for_processing` classifies
the same image as invalid. -/
theorem C6_zero_dim_not_rejected_counterexample :
    validate_image_for_processing (some img0) = (false, "Image has zero dimensions") ∧
    (dither_image labId (CARPET_COLORS.map hex_to_rgb) id false img0 0 0).output =
      (fun _ _ _ => 0) ∧
    (dither_image labId (CARPET_COLORS.map hex_to_rgb) id false img0 0 0).processed = 0 := by
  refine ⟨rfl, ?_, ?_⟩ <;>
    simp [dither_image, ditherSweep, pixelList, img0]

/-- C6 (amended): `dither_image` itself performs no input validation and
raises no typed error (it has no error channel at all): a zero-dimension
source with resizing disabled is processed to completion with an empty,
all-zero output buffer observable, not rejected.  The classifier
`ImageProcessor.validate_image_for_processing` does mark a null image, a
zero-dimension image, and an unsupported pixel mode as invalid — but it
returns a `(bool, message)` pair rather than raising, and no code in the
repository calls it on the dithering path. -/
theorem C6_dither_image_does_not_validate (img : PImage) (labOf : Col → Pix)
    (colors : List Col) (resizeFn : PImage → PImage) (p0 t0 : ℕ)
    (h : img.width = 0 ∨ img.height = 0) :
    validate_image_for_processing none = (false, "Image is None") ∧
    validate_image_for_processing (some img) = (false, "Image has zero dimensions") ∧
    (∀ im : PImage,
      ¬ (im.mode = "RGB" ∨ im.mode = "RGBA" ∨ im.mode = "L" ∨ im.mode = "P") →
      ¬ (im.width = 0 ∨ im.height = 0) →
      validate_image_for_processing (some im) = (false, "Unsupported image mode")) ∧
    (dither_image labOf colors resizeFn false img p0 t0).output = (fun _ _ _ => 0) ∧
    (dither_image labOf colors resizeFn false img p0 t0).processed = 0 := by
  have hplist : pixelList img.width img.height = [] := by
    rcases h with h | h <;> simp [pixelList, h]
  refine ⟨rfl, ?_, ?_, ?_, ?_⟩
  · show (if img.width = 0 ∨ img.height = 0 then
        ((false : Bool), "Image has zero dimensions")
      else if ¬ (img.mode = "RGB" ∨ img.mode = "RGBA" ∨ img.mode = "L" ∨ img.mode = "P")
      then ((false : Bool), "Unsupported image mode")
      else if 4194304 < img.width * img.height then
        ((false : Bool), "Image is too large (max 2048x2048)")
      else ((true : Bool), "Image is valid for processing")) =
      ((false : Bool), "Image has zero dimensions")
    rw [if_pos h]
  · intro im hm hz
    show (if im.width = 0 ∨ im.height = 0 then
        ((false : Bool), "Image has zero dimensions")
      else if ¬ (im.mode = "RGB" ∨ im.mode = "RGBA" ∨ im.mode = "L" ∨ im.mode = "P")
      then ((false : Bool), "Unsupported image mode")
      else if 4194304 < im.width * im.height then
        ((false : Bool), "Image is too large (max 2048x2048)")
      else ((true : Bool), "Image is valid for processing")) =
      ((false : Bool), "Unsupported image mode")
    rw [if_neg hz, if_pos hm]
  · simp [dither_image, ditherSweep, hplist]
  · simp [dither_image, ditherSweep, hplist]

/-- Witness for C6 (amended) at the concrete 0×0 image. -/
theorem C6_dither_image_does_not_validate_witness :
    (img0.width = 0 ∨ img0.height = 0) ∧
    validate_image_for_processing (some img0) = (false, "Image has zero dimensions") ∧
    (dither_image labId [] id false img0 0 0).processed = 0 := by
  have h := C6_dither_image_does_not_validate img0 labId [] id 0 0 (by decide)
  exact ⟨by decide, h.2.1, h.2.2.2.2⟩

/-- Modelled from the spec: the multi-map resize entry point —
`resize_for_minecraft(image, map_width, map_height)` with 1..8 validation
and `(N·128, M·128)` canvases — is exercised by `test_multimap.py` and the
CLI options it checks, and is described in spec §4.2 ("Multi-tile sizing")
and §8 ("Multi-tile bounds"), but its implementation is absent from
`src/src` (the `resize_for_minecraft` there takes only a single `map_size`
pair).  Per the spec: the effective canvas of an N×M grid of fixed-size
128×128 tiles is `(N·tileSize, M·tileSize)`; N or M outside the configured
inclusive range 1..8 fails with `InvalidDimensionsError` naming the
offending bound (the message text is the one `test_multimap.py` greps for);
the aspect-preserving fit-and-center content is the abstract parameter
`fit`. -/
def resize_for_minecraft_grid (fit : PImage → ℕ → ℕ → (ℤ → ℤ → Col))
    (img : PImage) (map_width map_height : ℕ) : Except DitherError PImage :=
  if map_width < 1 ∨ 8 < map_width then
    .error (.invalidDimensions "Map width must be between 1 and 8")
  else if map_height < 1 ∨ 8 < map_height then
    .error (.invalidDimensions "Map height must be between 1 and 8")
  else
    .ok ⟨128 * map_width, 128 * map_height, "RGB", fit img map_width map_height⟩

/-- C7: any tile-grid width or height outside the inclusive range 1..8 fails
with an `InvalidDimensionsError` naming the offending bound — in particular
a 9×1 grid fails on the width bound — and a 2×1 grid produces an output of
exactly (2·128, 128) = (256, 128) pixels. -/
theorem C7_tile_grid_bounds (fit : PImage → ℕ → ℕ → (ℤ → ℤ → Col)) (img : PImage) :
    (∀ N M : ℕ, (N < 1 ∨ 8 < N) →
      resize_for_minecraft_grid fit img N M =
        .error (.invalidDimensions "Map width must be between 1 and 8")) ∧
    (∀ N M : ℕ, ¬ (N < 1 ∨ 8 < N) → (M < 1 ∨ 8 < M) →
      resize_for_minecraft_grid fit img N M =
        .error (.invalidDimensions "Map height must be between 1 and 8")) ∧
    resize_for_minecraft_grid fit img 9 1 =
      .error (.invalidDimensions "Map width must be between 1 and 8") ∧
    (∃ out : PImage, resize_for_minecraft_grid fit img 2 1 = .ok out ∧
      out.width = 256 ∧ out.height = 128) := by
  refine ⟨?_, ?_, ?_, ?_⟩
  · intro N M h
    simp only [resize_for_minecraft_grid, if_pos h]
  · intro N M hn hm
    simp only [resize_for_minecraft_grid, if_neg hn, if_pos hm]
  · simp only [resize_for_minecraft_grid]
    norm_num
  · refine ⟨⟨128 * 2, 128 * 1, "RGB", fit img 2 1⟩, ?_, by norm_num, by norm_num⟩
    simp only [resize_for_minecraft_grid]
    norm_num

/-- Witness for C7: the two concrete scenarios of spec §8, derived by
applying the theorem. -/
theorem C7_tile_grid_bounds_witness :
    resize_for_minecraft_grid (fun _ _ _ _ _ _ => 0) imgGray1 9 1 =
      .error (.invalidDimensions "Map width must be between 1 and 8") ∧
    (∃ out : PImage,
      resize_for_minecraft_grid (fun _ _ _ _ _ _ => 0) imgGray1 2 1 = .ok out ∧
      out.width = 256 ∧ out.height = 128) := by
  have h := C7_tile_grid_bounds (fun _ _ _ _ _ _ => 0) imgGray1
  exact ⟨h.1 9 1 (by norm_num), h.2.2.2⟩

/-- `dither_image` as observed from the caller: the pair of the caller's
image and the ditherer's result.  In the source the caller's buffer is
never written: with resizing on, `resize_for_minecraft` works on
`image.copy()` (image_utils.py 102) and pastes into a freshly allocated
canvas; in all cases `image_to_array` (`np.array(image)`, image_utils.py
127) copies the pixel data into a fresh float array, `np.zeros_like`
allocates a fresh output array, and every subsequent write of the sweep
targets those two fresh arrays. -/
def dither_image_call (labOf : Col → Pix) (colors : List Col)
    (resizeFn : PImage → PImage) (rm : Bool) (c : PImage) (p0 t0 : ℕ) :
    PImage × DitherState :=
  (c, dither_image labOf colors resizeFn rm c p0 t0)

/-- C10: `dither_image` never modifies the caller's input image — after the
call the caller's image, its pixel data included, is exactly what it was,
while the run's working buffer started as a value copy of the (possibly
resized) image's pixels. -/
theorem C10_input_image_unmodified (labOf : Col → Pix) (colors : List Col)
    (resizeFn : PImage → PImage) (rm : Bool) (c : PImage) (p0 t0 : ℕ) :
    (dither_image_call labOf colors resizeFn rm c p0 t0).1 = c ∧
    (dither_image_call labOf colors resizeFn rm c p0 t0).1.pix = c.pix ∧
    (dither_image_call labOf colors resizeFn rm c p0 t0).2 =
      ditherSweep labOf colors (if rm then resizeFn c else c).width
        (if rm then resizeFn c else c).height
        { working := fun i j ch => (((if rm then resizeFn c else c).pix i j ch : ℤ) : ℚ)
          output := fun _ _ _ => 0
          processed := 0
          total := (if rm then resizeFn c else c).height *
            (if rm then resizeFn c else c).width } :=
  ⟨rfl, rfl, rfl⟩
